import Mathlib

/-!
Shallow embedding of the axiom-agent repository core (agent.py, app.py,
main.py, tools/) and proofs about its specified behavior.

Conventions of the embedding:
* Python strings are Lean `String`s; most character-level processing is done
  on `String.data : List Char`, which matches Python's per-character view.
* Machine-ambient inputs (the current platform name, the model backend's
  HTTP response, `uuid.uuid4()` results, `time.time()` clock readings, the
  loaded JSON configuration) are passed as explicit arguments.
* Fallible Python code is modelled with `Except`; an uncaught Python
  exception is an `Except.error` value.
* Dictionaries that preserve insertion order are association lists.
-/

set_option maxRecDepth 10000

/-! ## Python string primitives -/

/-- The whitespace characters of Python's `str.strip()` / `str.split()` /
regex `\s` (ASCII range, which is all the repository ever feeds them). -/
def pyWs (c : Char) : Bool :=
  c = ' ' || c = '\t' || c = '\n' || c = '\r' || c = '\x0b' || c = '\x0c'

/-- The set `shlex.whitespace` is the four-character set `" \t\r\n"`. -/
def shlexWs (c : Char) : Bool :=
  c = ' ' || c = '\t' || c = '\r' || c = '\n'

/-- Python `str.lower()` on a character list (ASCII case folding, as used on
the command/pattern strings of the security gate). -/
def lowerL (l : List Char) : List Char := l.map Char.toLower

/-- Python `str.lower()`. -/
def lowerS (s : String) : String := ⟨lowerL s.data⟩

/-- Python `str.strip()` on a character list. -/
def stripL (l : List Char) : List Char :=
  ((l.dropWhile pyWs).reverse.dropWhile pyWs).reverse

/-- Python `str.strip()`. -/
def stripS (s : String) : String := ⟨stripL s.data⟩

/-- Python `sub in s` (substring containment) on character lists. -/
def containsSubL (pat : List Char) : List Char → Bool
  | [] => pat.isPrefixOf []
  | c :: rest => pat.isPrefixOf (c :: rest) || containsSubL pat rest

/-- Python `pat in s` (substring containment) on strings. -/
def containsSubS (pat s : String) : Bool := containsSubL pat.data s.data

/-- Case-insensitive substring containment, i.e. `re.search` of a literal
pattern with `re.IGNORECASE`. -/
def containsSubCI (pat s : String) : Bool :=
  containsSubL (lowerL pat.data) (lowerL s.data)

/-- Python `s.startswith(pat)` on strings. -/
def startsWithS (s pat : String) : Bool := pat.data.isPrefixOf s.data

/-- Python `s.endswith(pat)` on strings. -/
def endsWithS (s pat : String) : Bool := pat.data.isSuffixOf s.data

/-- Split a character list at the first occurrence of a literal substring:
returns the characters before the match and the characters after it. -/
def splitAtSubL (pat : List Char) : List Char → Option (List Char × List Char)
  | [] => if pat.isPrefixOf ([] : List Char) then some ([], []) else none
  | c :: rest =>
    if pat.isPrefixOf (c :: rest) then some ([], (c :: rest).drop pat.length)
    else match splitAtSubL pat rest with
      | some (pre, post) => some (c :: pre, post)
      | none => none

/-- Python `str.split()` with no separator: split on runs of whitespace,
dropping empty fields. -/
def wsSplitGo : List Char → List Char → List String
  | [], cur => if cur.isEmpty then [] else [⟨cur.reverse⟩]
  | c :: rest, cur =>
    if pyWs c then
      if cur.isEmpty then wsSplitGo rest [] else ⟨cur.reverse⟩ :: wsSplitGo rest []
    else wsSplitGo rest (c :: cur)

/-- Python `str.split()` (no separator argument). -/
def pySplitWs (s : String) : List String := wsSplitGo s.data []

/-- Python `str.split('\n')` (used on fenced-block interiors). -/
def splitNlGo : List Char → List Char → List String
  | [], cur => [⟨cur.reverse⟩]
  | c :: rest, cur =>
    if c = '\n' then ⟨cur.reverse⟩ :: splitNlGo rest [] else splitNlGo rest (c :: cur)

/-- Python `str.split('\n')`. -/
def pySplitNl (s : String) : List String := splitNlGo s.data []

/-- Python `'sep'.join(xs)` with a one-space separator. -/
def joinSpace : List String → String
  | [] => ""
  | [x] => x
  | x :: y :: rest => x ++ " " ++ joinSpace (y :: rest)

/-- Rendering of a Python bool in an f-string: "True" or "False". -/
def pyBoolStr (b : Bool) : String := if b then "True" else "False"

/-! ## `shlex.split` (POSIX mode, `whitespace_split=True`, as used by
`shlex.split(command)` in every `is_sensitive_command` variant).

States: scanning plain input, inside single quotes, inside double quotes.
Escapes are handled by two-character lookahead.  An unterminated quote
raises `ValueError("No closing quotation")`; a trailing escape character
raises `ValueError("No escape character")`. -/

inductive ShlexState
  | plain
  | single
  | double
deriving DecidableEq, Repr

/-- One pass of the `shlex` lexer.  `cur` is the token under construction
(reversed), `started` records whether the current token has begun (so that
an empty quoted string still yields a token), `acc` is the list of finished
tokens (reversed). -/
def shlexGo : List Char → ShlexState → List Char → Bool → List String →
    Except String (List String)
  | [], .plain, cur, started, acc =>
    .ok (if started then (⟨cur.reverse⟩ :: acc).reverse else acc.reverse)
  | [], .single, _, _, _ => .error "No closing quotation"
  | [], .double, _, _, _ => .error "No closing quotation"
  | '\\' :: rest, .plain, cur, _, acc =>
    (match rest with
     | [] => .error "No escape character"
     | d :: rest2 => shlexGo rest2 .plain (d :: cur) true acc)
  | '\'' :: rest, .plain, cur, _, acc => shlexGo rest .single cur true acc
  | '"' :: rest, .plain, cur, _, acc => shlexGo rest .double cur true acc
  | c :: rest, .plain, cur, started, acc =>
    if shlexWs c then
      if started then shlexGo rest .plain [] false (⟨cur.reverse⟩ :: acc)
      else shlexGo rest .plain [] false acc
    else shlexGo rest .plain (c :: cur) true acc
  | '\'' :: rest, .single, cur, started, acc => shlexGo rest .plain cur started acc
  | c :: rest, .single, cur, started, acc => shlexGo rest .single (c :: cur) started acc
  | '"' :: rest, .double, cur, started, acc => shlexGo rest .plain cur started acc
  | '\\' :: rest, .double, cur, started, acc =>
    (match rest with
     | [] => .error "No escape character"
     | d :: rest2 =>
       if d = '"' || d = '\\' then shlexGo rest2 .double (d :: cur) started acc
       else shlexGo rest2 .double (d :: '\\' :: cur) started acc)
  | c :: rest, .double, cur, started, acc => shlexGo rest .double (c :: cur) started acc

/-- Embeds `shlex.split(command)`: POSIX shell-word tokenization, raising
`ValueError` on an unterminated quote or trailing escape. -/
def shlex_split (s : String) : Except String (List String) :=
  shlexGo s.data .plain [] false []

/-! ## SecurityManager: sensitive-command classification.

The repository contains three variants of `is_sensitive_command`; each is
embedded separately.  The rule list (loaded from `security.json`) and the
current platform name (`platform.system().lower()`) are explicit
arguments. -/

/-- One entry of `security.json`'s `sensitive_commands` array; every key may
be absent (`dict.get` defaults are applied at the use sites). -/
structure SensitiveRule where
  pattern : Option String
  description : Option String
  os : List String
deriving DecidableEq, Repr

namespace AgentPy

/-- Rule loop of `agent.py`'s `SecurityManager.is_sensitive_command`
(lines 84-99): first-token exact/prefix match, then plain substring match,
each returning the rule's description. -/
def sensitiveLoop (current_os : String) (command : String) (base_cmd : String) :
    List SensitiveRule → Bool × String
  | [] => (false, "")
  | r :: rest =>
    let pattern := lowerS (r.pattern.getD "")
    if r.os.isEmpty || r.os.contains current_os then
      if base_cmd = pattern || startsWithS base_cmd (pattern ++ " ") then
        (true, r.description.getD "敏感命令")
      else if containsSubS pattern command then
        (true, r.description.getD "敏感命令")
      else sensitiveLoop current_os command base_cmd rest
    else sensitiveLoop current_os command base_cmd rest

/-- Embeds `SecurityManager.is_sensitive_command` of `agent.py` (lines 62-103).
A tokenization exception is caught and answered with `(False, "")`. -/
def is_sensitive_command (sensitive_commands : List SensitiveRule)
    (current_os : String) (command : String) : Bool × String :=
  if sensitive_commands.isEmpty then (false, "")
  else match shlex_split command with
    | .error _ => (false, "")
    | .ok cmd_parts =>
      match cmd_parts with
      | [] => (false, "")
      | base :: _ => sensitiveLoop current_os command (lowerS base) sensitive_commands

end AgentPy

namespace ToolsExecute

/-- Embeds `is_sensitive_command` of `tools/execute.py` (lines 12-64).  The rule
list read from `security.json` is the `sensitive_commands` argument; the
classification logic and the `(False, "")` exception fallback are identical
to the `agent.py` variant. -/
def is_sensitive_command (sensitive_commands : List SensitiveRule)
    (current_os : String) (command : String) : Bool × String :=
  if sensitive_commands.isEmpty then (false, "")
  else match shlex_split command with
    | .error _ => (false, "")
    | .ok cmd_parts =>
      match cmd_parts with
      | [] => (false, "")
      | base :: _ =>
        AgentPy.sensitiveLoop current_os command (lowerS base) sensitive_commands

end ToolsExecute

namespace MainPy

/-- Rule loop of `main.py`'s `SecurityManager.is_sensitive_command`
(lines 182-203): first-token exact/prefix match returns the rule's
description; a substring match instead only triggers the two compound
heuristics (`rm -rf /`-style recursive delete, `dd of=`-style raw disk
write). -/
def sensitiveLoop (current_os : String) (command : String) (base_cmd : String)
    (cmd_parts : List String) : List SensitiveRule → Bool × String
  | [] => (false, "")
  | r :: rest =>
    let pattern := lowerS (r.pattern.getD "")
    if r.os.isEmpty || r.os.contains current_os then
      if base_cmd = pattern || startsWithS base_cmd (pattern ++ " ") then
        (true, r.description.getD "敏感命令")
      else if containsSubS pattern command then
        if base_cmd = "rm" && cmd_parts.contains "-rf" &&
            cmd_parts.any (fun arg => arg = "/" || arg = "*") then
          (true, "危险的递归删除命令")
        else if base_cmd = "dd" && cmd_parts.any (fun arg => startsWithS arg "of=") then
          (true, "数据写入磁盘命令")
        else sensitiveLoop current_os command base_cmd cmd_parts rest
      else sensitiveLoop current_os command base_cmd cmd_parts rest
    else sensitiveLoop current_os command base_cmd cmd_parts rest

/-- Embeds `SecurityManager.is_sensitive_command` of `main.py` (lines 163-210).
A tokenization exception is caught and answered with
`(True, "命令检查异常，请谨慎执行")` — the fail-closed variant. -/
def is_sensitive_command (sensitive_commands : List SensitiveRule)
    (current_os : String) (command : String) : Bool × String :=
  match shlex_split command with
  | .error _ => (true, "命令检查异常，请谨慎执行")
  | .ok cmd_parts =>
    match cmd_parts with
    | [] => (false, "")
    | base :: _ =>
      sensitiveLoop current_os command (lowerS base) cmd_parts sensitive_commands

end MainPy

/-- The Unix-relevant head of the default `security.json` rule set that
`main.py`'s `create_default_security_config` writes (lines 90-131). -/
def unixDefaultRules : List SensitiveRule :=
  [ ⟨some "rm", some "删除文件或目录命令", ["linux", "darwin"]⟩,
    ⟨some "rmdir", some "删除目录命令", ["linux", "darwin", "windows"]⟩,
    ⟨some "dd", some "数据复制命令", ["linux", "darwin"]⟩ ]

/-! ## JSON values (the shapes produced by `json.loads` and consumed by
`json.dumps(..., ensure_ascii=False)`).

JSON numbers are kept as integers: the repository only ever inspects
string-valued fields of decoded objects, so fractional parts (which Python
would keep as floats) are out of scope for every claim. -/

inductive JsonValue
  | null
  | bool (b : Bool)
  | num (n : Int)
  | str (s : String)
  | arr (xs : List JsonValue)
  | obj (fields : List (String × JsonValue))
deriving Repr

/-- Python `dict` insertion: replace the value of an existing key in place,
otherwise append the binding. -/
def pyDictInsert (fields : List (String × JsonValue)) (k : String) (v : JsonValue) :
    List (String × JsonValue) :=
  match fields with
  | [] => [(k, v)]
  | (k', v') :: rest =>
    if k' = k then (k', v) :: rest else (k', v') :: pyDictInsert rest k v

/-- Python `dict.get` on an ordered association list. -/
def pyDictGet (fields : List (String × JsonValue)) (k : String) : Option JsonValue :=
  match fields with
  | [] => none
  | (k', v) :: rest => if k' = k then some v else pyDictGet rest k

/-- JSON insignificant whitespace. -/
def jsonSkipWs (l : List Char) : List Char :=
  l.dropWhile (fun c => c = ' ' || c = '\t' || c = '\n' || c = '\r')

/-- Decode one hexadecimal digit. -/
def hexDigitVal (c : Char) : Option Nat :=
  if '0' ≤ c ∧ c ≤ '9' then some (c.toNat - '0'.toNat)
  else if 'a' ≤ c ∧ c ≤ 'f' then some (c.toNat - 'a'.toNat + 10)
  else if 'A' ≤ c ∧ c ≤ 'F' then some (c.toNat - 'A'.toNat + 10)
  else none

/-- Parse the body of a JSON string literal (the opening quote already
consumed), returning the decoded string and the rest of the input. -/
def jpStrGo : List Char → List Char → Option (String × List Char)
  | [], _ => none
  | '"' :: r, acc => some (⟨acc.reverse⟩, r)
  | '\\' :: r, acc =>
    (match r with
     | [] => none
     | 'n' :: r2 => jpStrGo r2 ('\n' :: acc)
     | 't' :: r2 => jpStrGo r2 ('\t' :: acc)
     | 'r' :: r2 => jpStrGo r2 ('\r' :: acc)
     | 'b' :: r2 => jpStrGo r2 ('\x08' :: acc)
     | 'f' :: r2 => jpStrGo r2 ('\x0c' :: acc)
     | '/' :: r2 => jpStrGo r2 ('/' :: acc)
     | '"' :: r2 => jpStrGo r2 ('"' :: acc)
     | '\\' :: r2 => jpStrGo r2 ('\\' :: acc)
     | 'u' :: h1 :: h2 :: h3 :: h4 :: r2 =>
       (match hexDigitVal h1, hexDigitVal h2, hexDigitVal h3, hexDigitVal h4 with
        | some a, some b, some c, some d =>
          jpStrGo r2 (Char.ofNat (((a * 16 + b) * 16 + c) * 16 + d) :: acc)
        | _, _, _, _ => none)
     | _ => none)
  | c :: r, acc => jpStrGo r (c :: acc)
termination_by l _ => l.length

/-- Parse a JSON number (integer part only; see `JsonValue`). -/
def jpNum (l : List Char) : Option (JsonValue × List Char) :=
  let (neg, l1) := match l with
    | '-' :: r => (true, r)
    | _ => (false, l)
  let (ds, l2) := l1.span Char.isDigit
  if ds.isEmpty then none
  else
    let mag : Nat := ds.foldl (fun acc c => acc * 10 + (c.toNat - '0'.toNat)) 0
    let l3 := match l2 with
      | '.' :: r => r.dropWhile Char.isDigit
      | _ => l2
    let l4 := match l3 with
      | 'e' :: r | 'E' :: r =>
        (match r with
         | '+' :: r2 | '-' :: r2 => r2.dropWhile Char.isDigit
         | _ => r.dropWhile Char.isDigit)
      | _ => l3
    some (.num (if neg then -(mag : Int) else (mag : Int)), l4)

mutual

/-- Fuel-indexed JSON value parser (`json.loads` recursive descent). -/
def jpVal : Nat → List Char → Option (JsonValue × List Char)
  | 0, _ => none
  | fuel + 1, l =>
    match jsonSkipWs l with
    | 'n' :: 'u' :: 'l' :: 'l' :: r => some (.null, r)
    | 't' :: 'r' :: 'u' :: 'e' :: r => some (.bool true, r)
    | 'f' :: 'a' :: 'l' :: 's' :: 'e' :: r => some (.bool false, r)
    | '"' :: r => (jpStrGo r []).map (fun p => (.str p.1, p.2))
    | '[' :: r =>
      (match jsonSkipWs r with
       | ']' :: r2 => some (.arr [], r2)
       | r2 => (jpArrItems fuel r2).map (fun p => (.arr p.1, p.2)))
    | '\x7b' :: r =>
      (match jsonSkipWs r with
       | '\x7d' :: r2 => some (.obj [], r2)
       | r2 =>
         (jpObjItems fuel r2).map
           (fun p => (.obj (p.1.foldl (fun acc kv => pyDictInsert acc kv.1 kv.2) []), p.2)))
    | l' => jpNum l'

/-- Comma-separated JSON array items up to the closing bracket. -/
def jpArrItems : Nat → List Char → Option (List JsonValue × List Char)
  | 0, _ => none
  | fuel + 1, l =>
    match jpVal fuel l with
    | none => none
    | some (v, r) =>
      match jsonSkipWs r with
      | ',' :: r2 => (jpArrItems fuel r2).map (fun p => (v :: p.1, p.2))
      | ']' :: r2 => some ([v], r2)
      | _ => none

/-- Comma-separated JSON object members up to the closing brace. -/
def jpObjItems : Nat → List Char → Option (List (String × JsonValue) × List Char)
  | 0, _ => none
  | fuel + 1, l =>
    match jsonSkipWs l with
    | '"' :: r =>
      (match jpStrGo r [] with
       | none => none
       | some (k, r2) =>
         match jsonSkipWs r2 with
         | ':' :: r3 =>
           (match jpVal fuel r3 with
            | none => none
            | some (v, r4) =>
              match jsonSkipWs r4 with
              | ',' :: r5 => (jpObjItems fuel r5).map (fun p => ((k, v) :: p.1, p.2))
              | '\x7d' :: r5 => some ([(k, v)], r5)
              | _ => none)
         | _ => none)
    | _ => none

end

/-- Embeds `json.loads`: parse and require that only whitespace remains. -/
def jsonLoads (s : String) : Option JsonValue :=
  match jpVal (s.data.length + 1) s.data with
  | some (v, rest) => if (jsonSkipWs rest).isEmpty then some v else none
  | none => none

/-- Escape one character for `json.dumps(..., ensure_ascii=False)`. -/
def jsonEscapeChar (c : Char) : String :=
  if c = '"' then "\\\""
  else if c = '\\' then "\\\\"
  else if c = '\n' then "\\n"
  else if c = '\t' then "\\t"
  else if c = '\r' then "\\r"
  else if c.toNat < 32 then
    "\\u00" ++ String.singleton (Nat.digitChar (c.toNat / 16)) ++
      String.singleton (Nat.digitChar (c.toNat % 16))
  else String.singleton c

/-- Serialize a string as a JSON string literal (`ensure_ascii=False`). -/
def jsonQuote (s : String) : String :=
  "\"" ++ String.join (s.data.map jsonEscapeChar) ++ "\""

mutual

/-- Embeds `json.dumps(v, ensure_ascii=False)` with the default separators. -/
def jsonDumps : JsonValue → String
  | .null => "null"
  | .bool true => "true"
  | .bool false => "false"
  | .num n => toString n
  | .str s => jsonQuote s
  | .arr xs => "[" ++ jsonDumpsArr xs ++ "]"
  | .obj fs => "\x7b" ++ jsonDumpsObj fs ++ "\x7d"

/-- Array items joined by `", "`. -/
def jsonDumpsArr : List JsonValue → String
  | [] => ""
  | [x] => jsonDumps x
  | x :: y :: rest => jsonDumps x ++ ", " ++ jsonDumpsArr (y :: rest)

/-- Object members joined by `", "` with `": "` between key and value. -/
def jsonDumpsObj : List (String × JsonValue) → String
  | [] => ""
  | [(k, v)] => jsonQuote k ++ ": " ++ jsonDumps v
  | (k, v) :: y :: rest => jsonQuote k ++ ": " ++ jsonDumps v ++ ", " ++ jsonDumpsObj (y :: rest)

end

/-- Escape one character inside a Python `repr` string literal with the
given quote character. -/
def pyReprEscapeChar (q c : Char) : String :=
  if c = '\\' then "\\\\"
  else if c = q then "\\" ++ String.singleton q
  else if c = '\n' then "\\n"
  else if c = '\t' then "\\t"
  else if c = '\r' then "\\r"
  else String.singleton c

/-- Python `repr` of a string: single-quoted, switching to double quotes
when the text contains a single quote but no double quote. -/
def pyReprStr (s : String) : String :=
  let q : Char := if s.data.contains '\'' && !s.data.contains '"' then '"' else '\''
  String.singleton q ++ String.join (s.data.map (pyReprEscapeChar q)) ++ String.singleton q

mutual

/-- Python `repr` of a decoded JSON value. -/
def pyRepr : JsonValue → String
  | .null => "None"
  | .bool true => "True"
  | .bool false => "False"
  | .num n => toString n
  | .str s => pyReprStr s
  | .arr xs => "[" ++ pyReprArr xs ++ "]"
  | .obj fs => "\x7b" ++ pyReprObj fs ++ "\x7d"

/-- List items of a Python `repr`, joined by `", "`. -/
def pyReprArr : List JsonValue → String
  | [] => ""
  | [x] => pyRepr x
  | x :: y :: rest => pyRepr x ++ ", " ++ pyReprArr (y :: rest)

/-- Dict members of a Python `repr`, joined by `", "`. -/
def pyReprObj : List (String × JsonValue) → String
  | [] => ""
  | [(k, v)] => pyReprStr k ++ ": " ++ pyRepr v
  | (k, v) :: y :: rest => pyReprStr k ++ ": " ++ pyRepr v ++ ", " ++ pyReprObj (y :: rest)

end

/-- Python `str()` of a decoded JSON value (identity on strings, `repr`
otherwise). -/
def pyStr : JsonValue → String
  | .str s => s
  | v => pyRepr v

/-! ## DialogueManager (`agent.py` lines 213-295): the conversation store.

`main.py`'s copy (lines 560-642) differs only in two `str(...)` coercions
that are identities on the string-typed values the agents ever store. -/

/-- One chat message, `{"role": ..., "content": ...}`. -/
structure Message where
  role : String
  content : String
deriving DecidableEq, Repr

/-- The mutable state of a `DialogueManager`. -/
structure DlgState where
  max_tokens : Nat
  messages : List Message
  last_tool_was_info : Bool
deriving DecidableEq, Repr

/-- Embeds `DialogueManager.__init__(max_tokens)`. -/
def DialogueManager.mk' (max_tokens : Nat) : DlgState :=
  { max_tokens := max_tokens, messages := [], last_tool_was_info := false }

/-- Embeds `DialogueManager.add_system_message`. -/
def add_system_message (st : DlgState) (content : String) : DlgState :=
  { st with messages := st.messages ++ [⟨"system", content⟩] }

/-- Embeds `DialogueManager.add_user_message`. -/
def add_user_message (st : DlgState) (content : String) : DlgState :=
  { st with messages := st.messages ++ [⟨"user", content⟩] }

/-- Embeds `DialogueManager.add_assistant_message`. -/
def add_assistant_message (st : DlgState) (content : String) : DlgState :=
  { st with messages := st.messages ++ [⟨"assistant", content⟩] }

/-- The token estimate of `_trim_history`:
`sum(len(str(msg.get("content", ""))) for msg in self.messages) // 4`. -/
def estTokens (msgs : List Message) : Nat :=
  ((msgs.map (fun m => m.content.length)).sum) / 4

/-- The inner `for` loop of `_trim_history`: remove the first message whose
role is not `system`; `none` when every message is a `system` message. -/
def popFirstNonSystem : List Message → Option (List Message)
  | [] => none
  | m :: rest =>
    if m.role ≠ "system" then some rest
    else (popFirstNonSystem rest).map (fun l => m :: l)

/-- The `while` loop of `_trim_history`, fuel-indexed.  Each iteration that
fires removes exactly one message, so `messages.length` fuel is never
exhausted; if no non-`system` message exists while the guard holds, the
Python loop would spin forever (the inner `for` finds nothing and the guard
never changes) — that situation is unreachable because a reachable
conversation holds exactly one `system` message (proved below). -/
def trimGo (max_tokens : Nat) : Nat → List Message → List Message
  | 0, msgs => msgs
  | fuel + 1, msgs =>
    if estTokens msgs > max_tokens && msgs.length > 2 then
      match popFirstNonSystem msgs with
      | some msgs2 => trimGo max_tokens fuel msgs2
      | none => msgs
    else msgs

/-- Embeds `DialogueManager._trim_history` (`agent.py` lines 267-287). -/
def _trim_history (st : DlgState) : DlgState :=
  { st with messages := trimGo st.max_tokens st.messages.length st.messages }

/-! ## Tool calls and tool results -/

/-- A parsed tool invocation `{"name": ..., "args": ...}`.  `args` is kept
as the decoded JSON value: the fenced-block parse rule forwards whatever
object the model produced, while the heuristic rules always build an object
of string values. -/
structure ToolCall where
  name : String
  args : JsonValue
deriving Repr

/-- The dictionary a tool capability returns.  Every tool of the repository
sets `success`, usually sets `result` (a string; `none` models both an
absent key and Python `None`), the built-in `exit` tool sets `exit`, and a
completed interaction carries `user_input`. -/
structure ToolResult where
  success : Bool
  result : Option String
  exitFlag : Bool := false
  user_input : Option String := none
deriving DecidableEq, Repr

/-- The user-role message text synthesized by
`DialogueManager.add_tool_result` (`agent.py` lines 246-262): header with
tool name, serialized arguments and success flag, then the result body
truncated at 4000 characters with a marker quoting the original length, then
the echoed human reply for the `interact` tool. -/
def toolResultMessage (tool_call : ToolCall) (result : ToolResult) : String :=
  let header :=
    "工具调用结果 (" ++ tool_call.name ++ ")\n" ++
    "参数: " ++ jsonDumps tool_call.args ++ "\n" ++
    "成功: " ++ pyBoolStr result.success ++ "\n"
  let body :=
    match result.result with
    | some r =>
      let result_text :=
        if r.length > 4000 then
          r.take 4000 ++ "\n... [内容已截断，共 " ++ toString r.length ++ " 字符]"
        else r
      "结果:\n" ++ result_text
    | none => "结果: 无内容"
  let tail :=
    if tool_call.name = "interact" then
      match result.user_input with
      | some u => "\n用户输入: " ++ u
      | none => ""
    else ""
  header ++ body ++ tail

/-- Embeds `DialogueManager.add_tool_result` (`agent.py` lines 233-265): update the
`last_tool_was_info` flag, append the synthesized user message, trim. -/
def add_tool_result (st : DlgState) (tool_call : ToolCall) (result : ToolResult) :
    DlgState :=
  let st1 := { st with last_tool_was_info := tool_call.name = "info" }
  _trim_history (add_user_message st1 (toolResultMessage tool_call result))

/-! ## ModelCommunicator.parse_response (`agent.py` lines 411-560).

The fixed regular expressions of the cascade are translated into dedicated
string scanners with Python `re.search` / `re.finditer` semantics
(leftmost match, the documented backtracking behavior of each concrete
pattern). -/

/-- The `choices[0]["message"]` object of a chat-completion envelope. -/
structure ChoiceMsg where
  content : Option String
deriving DecidableEq, Repr

/-- One element of a chat-completion `choices` array. -/
structure Choice where
  message : Option ChoiceMsg
deriving DecidableEq, Repr

/-- The decoded backend response consumed by `parse_response` and
`process_message`: an `error` key (set by `send_request` on failure, with
optional `details`) or a `choices` array. -/
structure ModelResponse where
  error : Option String := none
  details : Option String := none
  choices : List Choice := []
deriving DecidableEq, Repr

/-- Result of `parse_response`: the `"EOF"` sentinel, a tool call, or an
error dictionary `{"type": "error", "message": ..., "content"?: ...}`. -/
inductive ParseOutcome
  | eof
  | call (tc : ToolCall)
  | errOut (message : String) (content : Option String)
deriving Repr

/-- The class `[a-zA-Z_]`, the identifier class of the cascade's regexes. -/
def identChar (c : Char) : Bool := c.isAlpha || c = '_'

/-- Everything before the first occurrence of `c` — the lazy group of
`([\s\S]*?)` followed by the literal `c` — or `none` when `c` is absent. -/
def beforeFirstChar (c : Char) (l : List Char) : Option (List Char) :=
  if l.contains c then some (l.takeWhile (fun d => d ≠ c)) else none

/-- Drop everything up to and including the first case-insensitive
occurrence of `patLower` (already lower-cased); `none` when absent.  This is
the position information of `re.search` for a literal pattern with
`re.IGNORECASE`. -/
def dropAfterSubCI (patLower : List Char) : List Char → Option (List Char)
  | [] => if patLower.isEmpty then some [] else none
  | c :: rest =>
    if patLower.isPrefixOf (lowerL (c :: rest)) then some ((c :: rest).drop patLower.length)
    else dropAfterSubCI patLower rest

/-- Rule-2 helper: the captured group of
`re.search(r'```(?:json|python)?\s*([\s\S]*?)```', content)`. -/
def findFencedBlock (l : List Char) : Option (List Char) :=
  match splitAtSubL "```".data l with
  | none => none
  | some (_, afterOpen) =>
    let afterTag :=
      if "json".data.isPrefixOf afterOpen then afterOpen.drop 4
      else if "python".data.isPrefixOf afterOpen then afterOpen.drop 6
      else afterOpen
    match splitAtSubL "```".data (afterTag.dropWhile pyWs) with
    | some (inner, _) => some inner
    | none => none

/-- Rule-2 helper: `re.search(r'({[\s\S]*})', json_text)` — from the first
opening brace to the last closing brace (greedy `[\s\S]*`). -/
def extractBraces (l : List Char) : Option (List Char) :=
  let rest := l.dropWhile (fun c => c ≠ '\x7b')
  match rest with
  | [] => none
  | _ =>
    let upto := (rest.reverse.dropWhile (fun c => c ≠ '\x7d')).reverse
    if upto.isEmpty then none else some upto

/-- Python `key in v` for a decoded JSON value: key membership for objects,
element equality for arrays, substring test for strings, `TypeError` for
scalars. -/
def pyContains (key : String) : JsonValue → Except String Bool
  | .obj fs => .ok (fs.any (fun kv => kv.1 = key))
  | .arr xs => .ok (xs.any (fun x => match x with | .str s => s = key | _ => false))
  | .str s => .ok (containsSubS key s)
  | .num _ => .error "argument of type 'int' is not iterable"
  | .bool _ => .error "argument of type 'bool' is not iterable"
  | .null => .error "argument of type 'NoneType' is not iterable"

/-- Cascade rule 2 (`agent.py` lines 441-466): first fenced block, interior
lines collapsed to one, outermost braces extracted, decoded as JSON; a
decode failure is caught (the cascade continues), while `"name" in x` on a
decoded scalar and `x["name"]` on a decoded list/string raise out to
`parse_response`'s outer handler.  `.ok none` means "fall through to the
next rule". -/
def parseRule2 (content : String) (available_tools : List String) :
    Except String (Option ToolCall) :=
  match findFencedBlock content.data with
  | none => .ok none
  | some captured =>
    let json_text := stripS ⟨captured⟩
    let lines := ((pySplitNl json_text).map stripS).filter (fun line => line ≠ "")
    let json_text := joinSpace lines
    let json_text : String :=
      match extractBraces json_text.data with
      | some sub => ⟨sub⟩
      | none => json_text
    match jsonLoads json_text with
    | none => .ok none
    | some tool_json => do
      let hasName ← pyContains "name" tool_json
      let hasArgs ← pyContains "args" tool_json
      if hasName && hasArgs then
        match tool_json with
        | .obj fs =>
          (match pyDictGet fs "name" with
           | some (.str tool_name) =>
             if available_tools.contains tool_name then
               .ok (some ⟨tool_name, (pyDictGet fs "args").getD .null⟩)
             else .ok none
           | _ => .ok none)
        | .arr _ => .error "list indices must be integers or slices, not str"
        | .str _ => .error "string indices must be integers"
        | _ => .ok none
      else .ok none

/-- Rule-3 helper: the leftmost match of
`re.search(r'([a-zA-Z_]+)\s*\(([\s\S]*?)\)', content)` as
(identifier, parenthesized text).  An identifier run not followed by
(optional whitespace and) `(` can never match at any of its suffixes, so
the scan resumes after the run; a `(` with no later `)` fails the whole
search. -/
def rule3Scan : Nat → List Char → Option (String × String)
  | 0, _ => none
  | fuel + 1, l =>
    match l with
    | [] => none
    | c :: rest =>
      if identChar c then
        let run := l.takeWhile identChar
        let after := l.drop run.length
        match after.dropWhile pyWs with
        | '(' :: tail =>
          (match beforeFirstChar ')' tail with
           | some inner => some (⟨run⟩, ⟨inner⟩)
           | none => none)
        | _ => rule3Scan fuel after
      else rule3Scan fuel rest

/-- Rule-3 helper: `re.finditer`
`([a-zA-Z_]+)\s*=\s*(?:"([^"]*?)"|\'([^\']*?)\'|([^,\s]+))` over the
argument text, building the argument dictionary in match order. -/
def rule3ArgsScan : Nat → List Char → List (String × JsonValue) →
    List (String × JsonValue)
  | 0, _, acc => acc
  | fuel + 1, l, acc =>
    match l with
    | [] => acc
    | c :: rest =>
      if identChar c then
        let run := l.takeWhile identChar
        let after := (l.drop run.length).dropWhile pyWs
        match after with
        | '=' :: tail =>
          let tail2 := tail.dropWhile pyWs
          let bareCase := fun (tl : List Char) =>
            let bare := tl.takeWhile (fun d => !(d = ',' || pyWs d))
            if bare.isEmpty then rule3ArgsScan fuel tl acc
            else
              rule3ArgsScan fuel (tl.drop bare.length)
                (pyDictInsert acc ⟨run⟩ (.str ⟨bare⟩))
          (match tail2 with
           | '"' :: t =>
             (match beforeFirstChar '"' t with
              | some v =>
                rule3ArgsScan fuel (t.drop (v.length + 1))
                  (pyDictInsert acc ⟨run⟩ (.str ⟨v⟩))
              | none => bareCase tail2)
           | '\'' :: t =>
             (match beforeFirstChar '\'' t with
              | some v =>
                rule3ArgsScan fuel (t.drop (v.length + 1))
                  (pyDictInsert acc ⟨run⟩ (.str ⟨v⟩))
              | none => bareCase tail2)
           | _ => bareCase tail2)
        | _ => rule3ArgsScan fuel after acc
      else rule3ArgsScan fuel rest acc

/-- Cascade rule 3 (`agent.py` lines 471-488): call syntax
`identifier(arg=value, ...)`; only the first syntactic match is considered,
and it is used only when the identifier is a registered tool name. -/
def parseRule3 (content : String) (available_tools : List String) : Option ToolCall :=
  match rule3Scan content.data.length content.data with
  | none => none
  | some (tool_name, args_raw) =>
    let args_text := stripS args_raw
    if available_tools.contains tool_name then
      some ⟨tool_name, .obj (rule3ArgsScan args_text.data.length args_text.data [])⟩
    else none

/-- Rule-4 helper: `re.finditer`
`([a-zA-Z_]+)\s*[:：]\s*['"]([^'"]+)['"]` over the remainder text, building
the argument dictionary from quoted `key: "value"` pairs (either quote
character may open or close). -/
def rule4PairsScan : Nat → List Char → List (String × JsonValue) →
    List (String × JsonValue)
  | 0, _, acc => acc
  | fuel + 1, l, acc =>
    match l with
    | [] => acc
    | c :: rest =>
      if identChar c then
        let run := l.takeWhile identChar
        let after := (l.drop run.length).dropWhile pyWs
        match after with
        | ':' :: tail | '：' :: tail =>
          let tail2 := tail.dropWhile pyWs
          (match tail2 with
           | q :: t3 =>
             if q = '"' || q = '\'' then
               let v := t3.takeWhile (fun d => !(d = '\'' || d = '"'))
               match t3.drop v.length with
               | q2 :: t4 =>
                 if !v.isEmpty && (q2 = '"' || q2 = '\'') then
                   rule4PairsScan fuel t4 (pyDictInsert acc ⟨run⟩ (.str ⟨v⟩))
                 else rule4PairsScan fuel tail2 acc
               | [] => rule4PairsScan fuel tail2 acc
             else rule4PairsScan fuel tail2 acc
           | [] => acc)
        | _ => rule4PairsScan fuel after acc
      else rule4PairsScan fuel rest acc

/-- Rule-4 helper for file-oriented tools: the leftmost match of
`['"]([^'"]+)['"]|文件\s*[:：]?\s*([^\s,]+)|路径\s*[:：]?\s*([^\s,]+)`,
returning the first non-empty group (the extracted file path). -/
def filePathScan : Nat → List Char → Option String
  | 0, _ => none
  | fuel + 1, l =>
    match l with
    | [] => none
    | c :: rest =>
      let alt1 : Option String :=
        if c = '"' || c = '\'' then
          let v := rest.takeWhile (fun d => !(d = '\'' || d = '"'))
          match rest.drop v.length with
          | q2 :: _ => if !v.isEmpty && (q2 = '"' || q2 = '\'') then some ⟨v⟩ else none
          | [] => none
        else none
      let altLabel : String → Option String := fun label =>
        if label.data.isPrefixOf l then
          let t := (l.drop label.data.length).dropWhile pyWs
          let t := match t with
            | ':' :: t2 | '：' :: t2 => t2.dropWhile pyWs
            | _ => t
          let tok := t.takeWhile (fun d => !(pyWs d || d = ','))
          if tok.isEmpty then none else some ⟨tok⟩
        else none
      match alt1 with
      | some v => some v
      | none =>
        match altLabel "文件" with
        | some v => some v
        | none =>
          match altLabel "路径" with
          | some v => some v
          | none => filePathScan fuel rest

/-- Rule-4 helper: for one tool name, the stripped captured remainder of
`re.search(rf'{tool_name}\s*[:：]?\s*(.*)', content, re.IGNORECASE)` —
text on the same line after the name, optional colon skipped. -/
def rule4Remainder (tool_name : String) (content : String) : Option String :=
  match dropAfterSubCI (lowerL tool_name.data) content.data with
  | none => none
  | some after =>
    let afterWs := after.dropWhile pyWs
    let afterColon := match afterWs with
      | ':' :: t => t
      | '：' :: t => t
      | t => t
    let line := (afterColon.dropWhile pyWs).takeWhile (fun d => d ≠ '\n')
    some (stripS ⟨line⟩)

/-- Cascade rule 4 (`agent.py` lines 491-535): scan the registered tool
names in order; on the first name occurring in the content, build the
call from the remainder of its line — quoted pairs generically, then the
class-specific fallbacks (file path for `read`/`write`, whole remainder as
`command` for `execute`, whole remainder as `content` for
`info`/`interact`), `exit` taking the remainder as its message. -/
def parseRule4 (content : String) : List String → Option ToolCall
  | [] => none
  | tool_name :: restTools =>
    match rule4Remainder tool_name content with
    | none => parseRule4 content restTools
    | some rest_of_content =>
      if tool_name = "exit" then
        some ⟨"exit", .obj [("message",
          .str (if rest_of_content = "" then "任务已完成" else rest_of_content))]⟩
      else
        let args := rule4PairsScan rest_of_content.data.length rest_of_content.data []
        let args :=
          if args.isEmpty && (tool_name = "read" || tool_name = "write") then
            match filePathScan rest_of_content.data.length rest_of_content.data with
            | some fp => [("file_path", JsonValue.str fp)]
            | none => args
          else args
        let args :=
          if tool_name = "execute" && args.isEmpty then
            [("command", JsonValue.str rest_of_content)]
          else args
        let args :=
          if (tool_name = "info" || tool_name = "interact") && args.isEmpty then
            [("content", JsonValue.str rest_of_content)]
          else args
        some ⟨tool_name, .obj args⟩

/-- Cascade rule 5a: `re.search(r'退出|结束|完成|exit|quit', content,
re.IGNORECASE)`. -/
def hasExitKeyword (content : String) : Bool :=
  ["退出", "结束", "完成", "exit", "quit"].any (fun kw => containsSubCI kw content)

/-- Embeds `ModelCommunicator.parse_response(response, available_tools)`
(`agent.py` lines 411-560): envelope checks, then the strictly ordered
cascade — EOF sentinel, fenced JSON block, call syntax, tool-name mention,
keyword fallback — the first matching rule returning immediately; an
exception inside (possible only in rule 2's post-decode subscripting) is
caught by the outer handler and reported as a parse-exception error. -/
def parse_response (response : ModelResponse) (available_tools : List String) :
    ParseOutcome :=
  match response.error with
  | some e => .errOut e none
  | none =>
    match response.choices with
    | [] => .errOut "模型响应中没有choices字段" none
    | choice0 :: _ =>
      let content := ((choice0.message.bind (fun m => m.content)).getD "")
      if content = "" then .errOut "模型响应内容为空" none
      else if stripS content = "EOF" || endsWithS (stripS content) "EOF" then .eof
      else
        match parseRule2 content available_tools with
        | .error e => .errOut ("解析响应异常: " ++ e) none
        | .ok (some tc) => .call tc
        | .ok none =>
          match parseRule3 content available_tools with
          | some tc => .call tc
          | none =>
            match parseRule4 content available_tools with
            | some tc => .call tc
            | none =>
              if hasExitKeyword content then
                .call ⟨"exit", .obj [("message",
                  .str (if stripS content = "" then "任务已完成" else stripS content))]⟩
              else if (pySplitWs (stripS content)).length > 3 &&
                  available_tools.contains "info" then
                .call ⟨"info", .obj [("content", .str (stripS content))]⟩
              else .errOut "无法解析响应为工具调用" (some content)

/-! ## Tool registry and Python call semantics -/

/-- A modelled Python exception escaping the repository's own handlers. -/
inductive PyErr
  | typeError (msg : String)
  | attributeError (msg : String)
deriving DecidableEq, Repr

/-- A registered tool capability: its parameter list (name and optional
default, in signature order) and its body, run on the bound arguments.
Repository tools treat every argument as a string, so bodies receive the
bound values and convert with Python `str` semantics where they embed
them. -/
structure ToolSpec where
  params : List (String × Option JsonValue)
  run : List (String × JsonValue) → ToolResult

/-- Python keyword-argument binding for `tool_function(**tool_args)`:
a non-mapping `tool_args` and any argument name outside the signature raise
`TypeError`, as does a missing required parameter; otherwise every parameter
is bound to the given value or its default. -/
def bindArgs (fn : String) (params : List (String × Option JsonValue))
    (args : JsonValue) : Except PyErr (List (String × JsonValue)) :=
  match args with
  | .obj kwargs =>
    match kwargs.find? (fun kv => !(params.any (fun p => p.1 = kv.1))) with
    | some kv =>
      .error (.typeError (fn ++ "() got an unexpected keyword argument '" ++ kv.1 ++ "'"))
    | none =>
      match params.find? (fun p => p.2.isNone && !(kwargs.any (fun kv => kv.1 = p.1))) with
      | some p =>
        .error (.typeError (fn ++ "() missing 1 required positional argument: '" ++ p.1 ++ "'"))
      | none =>
        .ok (params.map (fun p =>
          (p.1, match pyDictGet kwargs p.1 with
                | some v => v
                | none => p.2.getD .null)))
  | _ => .error (.typeError (fn ++ "() argument after ** must be a mapping"))

/-- The bound value of a parameter (present by construction after
`bindArgs`). -/
def boundArg (bound : List (String × JsonValue)) (name : String) : JsonValue :=
  (pyDictGet bound name).getD .null

/-- Embeds `ToolManager.exit_program` (`agent.py` lines 196-210): the built-in exit
tool, one parameter `message` defaulting to `"任务已完成"`. -/
def exit_program : ToolSpec where
  params := [("message", some (.str "任务已完成"))]
  run := fun bound =>
    { success := true, result := some (pyStr (boundArg bound "message")), exitFlag := true }

/-- Embeds `tools/info.py execute(content)`: succeed and echo the content. -/
def infoTool : ToolSpec where
  params := [("content", none)]
  run := fun bound => { success := true, result := some (pyStr (boundArg bound "content")) }

/-- Embeds `tools/interact.py execute(content, prompt="请输入您的回复: ")`: in the
agent this body is never reached (the dispatcher intercepts `interact`
before invocation); its registration is still needed for name lookup. -/
def interactTool : ToolSpec where
  params := [("content", none), ("prompt", some (.str "请输入您的回复: "))]
  run := fun _ => { success := true, result := some "需要用户交互" }

/-- The `ToolManager` as the engine sees it: the description-table keys (the
`available_tools` list handed to the parser) and the name → capability map;
both are populated from `tools.json` at startup, plus the built-in `exit`.
The description table can be a superset of the loaded implementations. -/
structure AgentCfg where
  max_tokens : Nat := 16000
  tool_descriptions : List String
  tools : List (String × ToolSpec)

/-- Ordered-dictionary lookup (`d[k]` / `d.get(k)`). -/
def pyAssocGet {β : Type} : List (String × β) → String → Option β
  | [], _ => none
  | (k', v) :: rest, k => if k' = k then some v else pyAssocGet rest k

/-- Ordered-dictionary update (`d[k] = v`): replace in place or append. -/
def pyAssocSet {β : Type} : List (String × β) → String → β → List (String × β)
  | [], k, v => [(k, v)]
  | (k', v') :: rest, k, v =>
    if k' = k then (k', v) :: rest else (k', v') :: pyAssocSet rest k v

/-- Ordered-dictionary removal (`d.pop(k)` / `del d[k]`). -/
def pyAssocDel {β : Type} : List (String × β) → String → List (String × β)
  | [], _ => []
  | (k', v') :: rest, k => if k' = k then rest else (k', v') :: pyAssocDel rest k

/-- Embeds `ToolManager.get_tool_function`. -/
def get_tool_function (cfg : AgentCfg) (tool_name : String) : Option ToolSpec :=
  pyAssocGet cfg.tools tool_name

/-! ## AIAgent (`agent.py` lines 563-830) -/

/-- One suspended `interact` request
(`self.pending_interactions[interaction_id]`). -/
structure PendingInteraction where
  tool_call : ToolCall
  content : JsonValue
  prompt : JsonValue
deriving Repr

/-- The mutable state of an `AIAgent`. -/
structure AgentState where
  dialogue : DlgState
  pending_interactions : List (String × PendingInteraction)
deriving Repr

/-- Embeds `AIAgent.__init__`: fresh dialogue seeded with the system prompt (built
from live machine information, hence an argument), no pending
interactions. -/
def AIAgent.init (cfg : AgentCfg) (system_prompt : String) : AgentState :=
  { dialogue := add_system_message (DialogueManager.mk' cfg.max_tokens) system_prompt,
    pending_interactions := [] }

/-- The response dictionaries `process_message` / `complete_interaction`
return; absent keys are `none`.  `type` is the discriminator field. -/
structure AgentResponse where
  type : String
  message : Option String := none
  details : Option String := none
  content : Option JsonValue := none
  result : Option String := none
  next_action : Option String := none
  interaction_id : Option String := none
  prompt : Option JsonValue := none
  tool : Option String := none
  success : Option Bool := none
deriving Repr

/-- Dispatch of a resolved tool call (`agent.py` lines 719-796): the
consecutive-`info` loop guard, registry lookup, the `interact` suspension
path, invocation via `tool_function(**tool_args)` (whose binding failure is
an uncaught `TypeError`), the `exit` terminal check, and result recording.
`uuid` is the fresh `uuid.uuid4()` drawn on the interact path. -/
def handleToolCall (cfg : AgentCfg) (uuid : String) (st : AgentState)
    (tool_call : ToolCall) : Except PyErr AgentResponse × AgentState :=
  if tool_call.name = "info" && st.dialogue.last_tool_was_info then
    let tool_result : ToolResult :=
      { success := false, result := some "检测到连续使用info工具。请改用其他工具执行具体操作。" }
    (.ok { type := "warning", message := some "连续使用info工具",
           result := tool_result.result,
           next_action := some "请使用其他工具执行具体操作，而非继续提供信息。" },
     { st with dialogue := add_tool_result st.dialogue tool_call tool_result })
  else
    let tool_name := tool_call.name
    let tool_args := tool_call.args
    match get_tool_function cfg tool_name with
    | none =>
      let result : ToolResult := { success := false, result := some ("未知工具: " ++ tool_name) }
      (.ok { type := "error", message := some ("未知工具: " ++ tool_name) },
       { st with dialogue := add_tool_result st.dialogue tool_call result })
    | some tool_function =>
      if tool_name = "interact" then
        match tool_args with
        | .obj kwargs =>
          let content := (pyDictGet kwargs "content").getD (.str "请输入您的回复")
          let prompt := (pyDictGet kwargs "prompt").getD (.str "请输入您的回复: ")
          (.ok { type := "interaction_required", interaction_id := some uuid,
                 content := some content, prompt := some prompt },
           { st with pending_interactions :=
               pyAssocSet st.pending_interactions uuid ⟨tool_call, content, prompt⟩ })
        | _ => (.error (.attributeError "object has no attribute 'get'"), st)
      else
        match bindArgs tool_name tool_function.params tool_args with
        | .error e => (.error e, st)
        | .ok bound =>
          let result := tool_function.run bound
          if tool_name = "exit" && result.success && result.exitFlag then
            (.ok { type := "exit", message := some (result.result.getD "任务已完成") },
             { st with dialogue := add_tool_result st.dialogue tool_call result })
          else
            (.ok { type := "tool_result", tool := some tool_name,
                   success := some result.success,
                   result := some (result.result.getD "") },
             { st with dialogue := add_tool_result st.dialogue tool_call result })

/-- Embeds `agent.py` lines 698-702: append the assistant message when
`choices[0]["message"]["content"]` is present and non-empty. -/
def assistantAppended (d0 : DlgState) (response : ModelResponse) : DlgState :=
  match response.choices with
  | choice0 :: _ =>
    (match choice0.message with
     | some m =>
       (match m.content with
        | some content => if content ≠ "" then add_assistant_message d0 content else d0
        | none => d0)
     | none => d0)
  | [] => d0

/-- Embeds `AIAgent.process_message` (`agent.py` lines 667-796).  The backend's
response to `send_request` is the `response` argument. -/
def process_message (cfg : AgentCfg) (uuid : String) (st : AgentState)
    (message : String) (response : ModelResponse) :
    Except PyErr AgentResponse × AgentState :=
  let d0 := add_user_message st.dialogue message
  match response.error with
  | some e =>
    (.ok { type := "error", message := some e, details := some (response.details.getD "") },
     { st with dialogue := d0 })
  | none =>
    let available_tools := cfg.tool_descriptions
    let parsed := parse_response response available_tools
    let st1 : AgentState := { st with dialogue := assistantAppended d0 response }
    match parsed with
    | .errOut msg contentOpt =>
      (.ok { type := "error", message := some msg,
             content := some (.str (contentOpt.getD "")) }, st1)
    | .eof => handleToolCall cfg uuid st1 ⟨"exit", .obj [("message", .str "任务已完成")]⟩
    | .call tc => handleToolCall cfg uuid st1 tc

/-- Embeds `AIAgent.complete_interaction` (`agent.py` lines 798-830): unknown id →
error; otherwise pop the entry, record the successful interaction result,
and re-enter the cycle with the fixed continuation message. -/
def complete_interaction (cfg : AgentCfg) (uuid : String) (st : AgentState)
    (interaction_id : String) (user_input : String) (response : ModelResponse) :
    Except PyErr AgentResponse × AgentState :=
  match pyAssocGet st.pending_interactions interaction_id with
  | none =>
    (.ok { type := "error",
           message := some ("交互ID " ++ interaction_id ++ " 不存在或已过期") }, st)
  | some interaction =>
    let st := { st with
      pending_interactions := pyAssocDel st.pending_interactions interaction_id }
    let result : ToolResult :=
      { success := true, result := some ("用户回复: " ++ user_input),
        user_input := some user_input }
    let st := { st with dialogue := add_tool_result st.dialogue interaction.tool_call result }
    process_message cfg uuid st "继续执行任务" response

/-! ## app.py: the session-facing HTTP surface -/

/-- One entry of the module-level `interaction_requests` table. -/
structure IReq where
  session_id : String
  completed : Bool
  created_at : Nat
  user_input : Option String := none
deriving DecidableEq, Repr

/-- The module-level mutable state of `app.py`: `sessions`,
`interaction_requests`, `continuation_flags`. -/
structure AppState where
  sessions : List (String × AgentState)
  interaction_requests : List (String × IReq)
  continuation_flags : List (String × Bool)
deriving Repr

/-- The decoded JSON body of a `/api/chat` request. -/
structure ChatRequest where
  session_id : Option String := none
  message : Option String := none
  continue_req : Bool := false
  interaction_id : Option String := none
deriving DecidableEq, Repr

/-- A `/api/chat` response body: either the agent result enriched with
`session_id` and `has_continuation`, or an `{"error": ...}` object. -/
inductive ChatBody
  | payload (result : AgentResponse) (session_id : String) (has_continuation : Bool)
  | errBody (msg : String)
deriving Repr

/-- HTTP status plus body, as produced by `jsonify(...), code`. -/
structure ChatResult where
  status : Nat
  body : ChatBody
deriving Repr

/-- The text `str(e)` of a modelled Python exception (for the handler's
`jsonify({"error": str(e)}), 500`). -/
def pyErrStr : PyErr → String
  | .typeError m => m
  | .attributeError m => m

/-- Embeds `cleanup_expired_data` (`app.py` lines 127-136, run before every
request): drop interaction requests older than 1800 seconds. -/
def cleanup_expired_data (now : Nat) (st : AppState) : AppState :=
  { st with interaction_requests :=
      st.interaction_requests.filter (fun kv => !(now - kv.2.created_at > 1800)) }

/-- The bookkeeping `chat` performs after its `process_message` call
(`app.py` lines 83-103): store the mutated agent, register a pending
interaction or set the continuation flag, and enrich the response with
`session_id` and `has_continuation`; an exception out of `process_message`
is caught by the outer handler into a 500 error. -/
def chatAfterPM (now : Nat) (st : AppState) (session_id : String)
    (pm : Except PyErr AgentResponse × AgentState) : ChatResult × AppState :=
  let st := { st with sessions := pyAssocSet st.sessions session_id pm.2 }
  match pm.1 with
  | .error e => (⟨500, .errBody (pyErrStr e)⟩, st)
  | .ok result =>
    let st :=
      if result.type = "interaction_required" then
        { st with
          interaction_requests := pyAssocSet st.interaction_requests
            (result.interaction_id.getD "")
            { session_id := session_id, completed := false, created_at := now },
          continuation_flags := pyAssocSet st.continuation_flags session_id false }
      else
        { st with continuation_flags := pyAssocSet st.continuation_flags session_id true }
    (⟨200, .payload result session_id
        ((pyAssocGet st.continuation_flags session_id).getD false)⟩, st)

/-- The non-completion tail of `chat` (`app.py` lines 72-103): optional
continuation-message substitution, one `process_message` call, then the
`chatAfterPM` bookkeeping. -/
def chatNormalPath (cfg : AgentCfg) (system_prompt uuid : String) (now : Nat)
    (response : ModelResponse) (st : AppState) (session_id message0 : String)
    (continue_execution : Bool) : ChatResult × AppState :=
  let message :=
    if continue_execution && (pyAssocGet st.continuation_flags session_id).getD false then
      "继续执行任务"
    else message0
  let st := { st with continuation_flags := pyAssocSet st.continuation_flags session_id false }
  let agent := (pyAssocGet st.sessions session_id).getD (AIAgent.init cfg system_prompt)
  chatAfterPM now st session_id (process_message cfg uuid agent message response)

/-- The `/api/chat` endpoint (`app.py` lines 21-107) preceded by the
`before_request` cleanup.  `uuid_session` is the `uuid.uuid4()` a fresh
session would receive, `uuid` the one a fresh interaction would receive,
`response` the backend's reply for whichever single model round-trip this
call performs, `now` the `time.time()` reading.  A `none` request body is
the falsy `request.json` case. -/
def chat (cfg : AgentCfg) (system_prompt uuid_session uuid : String) (now : Nat)
    (response : ModelResponse) (st0 : AppState) (data : Option ChatRequest) :
    ChatResult × AppState :=
  let st := cleanup_expired_data now st0
  match data with
  | none => (⟨400, .errBody "请求体不能为空"⟩, st)
  | some data =>
    let (session_id, st) :=
      match data.session_id with
      | none =>
        (uuid_session,
         { st with
           sessions := pyAssocSet st.sessions uuid_session (AIAgent.init cfg system_prompt),
           continuation_flags := pyAssocSet st.continuation_flags uuid_session false })
      | some s => (s, st)
    match data.message with
    | none => (⟨400, .errBody "消息不能为空"⟩, st)
    | some message =>
      if message = "" then (⟨400, .errBody "消息不能为空"⟩, st)
      else
        let continue_execution := data.continue_req
        let st :=
          if (pyAssocGet st.sessions session_id).isNone then
            { st with
              sessions := pyAssocSet st.sessions session_id (AIAgent.init cfg system_prompt),
              continuation_flags := pyAssocSet st.continuation_flags session_id false }
          else st
        let agent := (pyAssocGet st.sessions session_id).getD (AIAgent.init cfg system_prompt)
        match data.interaction_id with
        | some interaction_id =>
          (match pyAssocGet st.interaction_requests interaction_id with
           | some ireq =>
             let ireq' : IReq := { ireq with user_input := some message, completed := true }
             let st := { st with
               interaction_requests :=
                 pyAssocSet st.interaction_requests interaction_id ireq' }
             let (res, agent') :=
               complete_interaction cfg uuid agent interaction_id message response
             let st := { st with sessions := pyAssocSet st.sessions session_id agent' }
             (match res with
              | .error e => (⟨500, .errBody (pyErrStr e)⟩, st)
              | .ok result =>
                let st := { st with
                  continuation_flags :=
                    pyAssocSet st.continuation_flags session_id true }
                (⟨200, .payload result session_id true⟩, st))
           | none =>
             chatNormalPath cfg system_prompt uuid now response st session_id message
               continue_execution)
        | none =>
          chatNormalPath cfg system_prompt uuid now response st session_id message
            continue_execution

/-! ## Specification-side definitions

Concrete fixtures for counterexamples and witnesses, plus the reachability
relations and spec predicates the claims quantify over. -/

/-- A well-formed chat-completion envelope with the given content. -/
def mkEnvelope (content : String) : ModelResponse :=
  { choices := [⟨some ⟨some content⟩⟩] }

/-- A registry with the built-in `exit` plus the `info` and `interact`
tools (the descriptions table lists the same names, as `load_tools`
produces). -/
def cfgBasic : AgentCfg :=
  { tool_descriptions := ["exit", "info", "interact"],
    tools := [("exit", exit_program), ("info", infoTool), ("interact", interactTool)] }

/-- A freshly constructed agent with system prompt `"S"`. -/
def agentFresh : AgentState := AIAgent.init cfgBasic "S"

/-- The state `agentFresh` right after an informational tool result was recorded
(`last_tool_was_info` is set). -/
def agentAfterInfo : AgentState :=
  { agentFresh with dialogue := { agentFresh.dialogue with last_tool_was_info := true } }

/-- A model reply invoking the exit tool with a misspelled argument name. -/
def respBogusExit : ModelResponse := mkEnvelope "exit(bogus=\"x\")"

/-- A model reply that rule 5 resolves to an `info` call. -/
def respPlainInfo : ModelResponse := mkEnvelope "alpha beta gamma delta"

/-- A pending `interact` request used by the TTL scenarios. -/
def interactPendingX : PendingInteraction :=
  ⟨⟨"interact", .obj [("content", .str "q")]⟩, .str "q", .str "p"⟩

/-- An agent holding pending interaction `"x"`. -/
def agentPendingX : AgentState :=
  { agentFresh with pending_interactions := [("x", interactPendingX)] }

/-- App state: session `"s"` holds `agentPendingX`, the app-level
interaction table has entry `"x"` created at time 0. -/
def appStatePendingX : AppState :=
  { sessions := [("s", agentPendingX)],
    interaction_requests := [("x", ⟨"s", false, 0, none⟩)],
    continuation_flags := [("s", false)] }

/-- The request that attempts to complete interaction `"x"`. -/
def requestCompleteX : ChatRequest :=
  { session_id := some "s", message := some "my reply", interaction_id := some "x" }

/-- The fixed header of the message `add_tool_result` synthesizes: tool
name, serialized arguments, success flag. -/
def toolResultHeader (tool_call : ToolCall) (result : ToolResult) : String :=
  "工具调用结果 (" ++ tool_call.name ++ ")\n" ++
  "参数: " ++ jsonDumps tool_call.args ++ "\n" ++
  "成功: " ++ pyBoolStr result.success ++ "\n"

/-- The trailing human-reply echo of the message `add_tool_result`
synthesizes (non-empty only for the `interact` tool). -/
def toolResultInteractTail (tool_call : ToolCall) (result : ToolResult) : String :=
  if tool_call.name = "interact" then
    match result.user_input with
    | some u => "\n用户输入: " ++ u
    | none => ""
  else ""

/-- A 4001-character result body for the truncation witness. -/
def longBody : String := String.mk (List.replicate 4001 'a')

/-- A sample call and over-long result for the truncation witness. -/
def callLs : ToolCall := ⟨"execute", .obj [("command", .str "ls")]⟩

/-- The result record carrying `longBody`. -/
def resultLong : ToolResult := { success := true, result := some longBody }

/-- The tool call `process_message` dispatches for a given parse outcome:
the parsed call itself, the synthesized default `exit` call for the EOF
sentinel, nothing for a parse error. -/
def dispatchedCall : ParseOutcome → Option ToolCall
  | .eof => some ⟨"exit", .obj [("message", .str "任务已完成")]⟩
  | .call tc => some tc
  | .errOut _ _ => none

/-- The dispatched call's arguments fit the resolved tool: an `interact`
call carries a mapping (so `.get` succeeds), and for any other resolved
tool the keyword arguments bind to the tool's signature. -/
def CallArgsFit (cfg : AgentCfg) (tc : ToolCall) : Prop :=
  (tc.name = "interact" → ∃ fs, tc.args = JsonValue.obj fs) ∧
  (∀ t, get_tool_function cfg tc.name = some t →
    (bindArgs tc.name t.params tc.args).isOk = true)

/-- Every call this model response can make `process_message` dispatch has
fitting arguments. -/
def DispatchBindsOk (cfg : AgentCfg) (response : ModelResponse) : Prop :=
  ∀ tc, dispatchedCall (parse_response response cfg.tool_descriptions) = some tc →
    CallArgsFit cfg tc

/-- Conversation states reachable from agent construction through the
operations the engine performs: the three appends and the trim
(`add_system_message` runs exactly once, inside `AIAgent.__init__`). -/
inductive DlgReachable : DlgState → Prop
  | init (max_tokens : Nat) (prompt : String) :
      DlgReachable (add_system_message (DialogueManager.mk' max_tokens) prompt)
  | user {s : DlgState} (c : String) :
      DlgReachable s → DlgReachable (add_user_message s c)
  | assistant {s : DlgState} (c : String) :
      DlgReachable s → DlgReachable (add_assistant_message s c)
  | tool {s : DlgState} (tc : ToolCall) (res : ToolResult) :
      DlgReachable s → DlgReachable (add_tool_result s tc res)
  | trim {s : DlgState} :
      DlgReachable s → DlgReachable (_trim_history s)

/-- The relation `DlgReachable` refined with the name under which the most recent
`add_tool_result` was recorded (`none` before the first record). -/
inductive DlgTrace : DlgState → Option String → Prop
  | init (max_tokens : Nat) (prompt : String) :
      DlgTrace (add_system_message (DialogueManager.mk' max_tokens) prompt) none
  | user {s : DlgState} {last : Option String} (c : String) :
      DlgTrace s last → DlgTrace (add_user_message s c) last
  | assistant {s : DlgState} {last : Option String} (c : String) :
      DlgTrace s last → DlgTrace (add_assistant_message s c) last
  | tool {s : DlgState} {last : Option String} (tc : ToolCall) (res : ToolResult) :
      DlgTrace s last → DlgTrace (add_tool_result s tc res) (some tc.name)
  | trim {s : DlgState} {last : Option String} :
      DlgTrace s last → DlgTrace (_trim_history s) last

/-- The pinned-system-message shape every reachable conversation has: a
`system` head and no further `system` message. -/
def SysPinned (msgs : List Message) : Prop :=
  ∃ c rest, msgs = ⟨"system", c⟩ :: rest ∧ ∀ m ∈ rest, m.role ≠ "system"

/-- A registry exposing the same description keys as `cfgBasic` but no
implementations, used to show the loop guard consults no implementation. -/
def cfgDescOnly : AgentCfg :=
  { tool_descriptions := ["exit", "info", "interact"], tools := [] }

/-- A plain new-message request for session `"s"`. -/
def requestDoIt : ChatRequest := { session_id := some "s", message := some "do it" }

/-- A `/api/chat` request that does not complete an interaction: it carries
no interaction id, or an id no longer present after the lazy purge. -/
def NewMessageRequest (now : Nat) (st : AppState) (req : ChatRequest) : Prop :=
  ∀ iid, req.interaction_id = some iid →
    pyAssocGet (cleanup_expired_data now st).interaction_requests iid = none

/-- A small reachable conversation (init, one user message, one tool
result, one trim). -/
def dlgSample : DlgState :=
  _trim_history (add_tool_result
    (add_user_message (add_system_message (DialogueManager.mk' 16000) "S") "hi")
    ⟨"info", .obj []⟩ { success := true, result := some "ok" })

/-- The synthetic failed result the loop guard records
(`agent.py` lines 721-724). -/
def infoGuardResult : ToolResult :=
  { success := false,
    result := some "检测到连续使用info工具。请改用其他工具执行具体操作。" }

/-- The warning response the loop guard returns
(`agent.py` lines 726-731). -/
def infoGuardResponse : AgentResponse :=
  { type := "warning", message := some "连续使用info工具",
    result := some "检测到连续使用info工具。请改用其他工具执行具体操作。",
    next_action := some "请使用其他工具执行具体操作，而非继续提供信息。" }

/-- A two-message conversation comfortably under the token ceiling. -/
def dlgSmall : DlgState :=
  add_user_message (add_system_message (DialogueManager.mk' 16000) "S") "hi"


/-! ## Theorems

Shared auxiliary lemmas first, then one main theorem per claim with its
counterexample or witness where applicable. -/

theorem popFirstNonSystem_pinned {msgs : List Message} (h : SysPinned msgs) :
    popFirstNonSystem msgs = none ∨
      ∃ msgs2, popFirstNonSystem msgs = some msgs2 ∧ SysPinned msgs2 := by
  obtain ⟨c, rest, rfl, hrest⟩ := h
  cases rest with
  | nil => left; simp [popFirstNonSystem]
  | cons m rest2 =>
    right
    refine ⟨⟨"system", c⟩ :: rest2, ?_, c, rest2, rfl, ?_⟩
    · have hm : m.role ≠ "system" := hrest m (by simp)
      simp [popFirstNonSystem, hm]
    · intro x hx; exact hrest x (by simp [hx])

theorem trimGo_pinned (max_tokens : Nat) :
    ∀ (fuel : Nat) (msgs : List Message), SysPinned msgs →
      SysPinned (trimGo max_tokens fuel msgs) := by
  intro fuel
  induction fuel with
  | zero => intro msgs h; simpa [trimGo] using h
  | succ n ih =>
    intro msgs h
    rw [trimGo]
    split
    · rcases popFirstNonSystem_pinned h with hp | ⟨msgs2, hp, h2⟩
      · rw [hp]; exact h
      · rw [hp]; exact ih msgs2 h2
    · exact h

theorem sysPinned_trim {s : DlgState} (h : SysPinned s.messages) :
    SysPinned (_trim_history s).messages :=
  trimGo_pinned s.max_tokens s.messages.length s.messages h

theorem sysPinned_append {msgs : List Message} (h : SysPinned msgs)
    (role content : String) (hr : role ≠ "system") :
    SysPinned (msgs ++ [⟨role, content⟩]) := by
  obtain ⟨c, rest, rfl, hrest⟩ := h
  refine ⟨c, rest ++ [⟨role, content⟩], by simp, ?_⟩
  intro m hm
  rcases List.mem_append.mp hm with hm | hm
  · exact hrest m hm
  · simp at hm; subst hm; exact hr

theorem dlgReachable_pinned {s : DlgState} (h : DlgReachable s) : SysPinned s.messages := by
  induction h with
  | init max_tokens prompt =>
    exact ⟨prompt, [], rfl, by intro m hm; cases hm⟩
  | user c _ ih => exact sysPinned_append ih "user" c (by decide)
  | assistant c _ ih => exact sysPinned_append ih "assistant" c (by decide)
  | tool tc res _ ih =>
    exact sysPinned_trim (sysPinned_append ih "user" _ (by decide))
  | trim _ ih => exact sysPinned_trim ih

/-- C5: in every reachable conversation state the message at index 0 exists
and has role `system`, and it is the only `system` message — every append
and every trim preserves this. -/
theorem C5_system_pinned : ∀ s : DlgState, DlgReachable s →
    s.messages ≠ [] ∧ (s.messages.headD ⟨"user", ""⟩).role = "system" ∧
      s.messages.countP (fun m => m.role == "system") = 1 := by
  intro s h
  obtain ⟨c, rest, hm, hrest⟩ := dlgReachable_pinned h
  rw [hm]
  refine ⟨by simp, by simp, ?_⟩
  rw [List.countP_cons]
  have h0 : rest.countP (fun m => m.role == "system") = 0 :=
    List.countP_eq_zero.mpr (by intro m hmem; simpa using hrest m hmem)
  simp [h0]

/-- C5 witness: the invariant holds at a concrete reachable state. -/
theorem C5_system_pinned_witness :
    dlgSample.messages ≠ [] ∧ (dlgSample.messages.headD ⟨"user", ""⟩).role = "system" ∧
      dlgSample.messages.countP (fun m => m.role == "system") = 1 :=
  C5_system_pinned dlgSample
    (DlgReachable.trim (DlgReachable.tool _ _
      (DlgReachable.user "hi" (DlgReachable.init 16000 "S"))))

/-- C7: the synthesized tool-result message embeds a body longer than 4000
characters as exactly its first 4000 characters followed by the truncation
marker quoting the original length, and a body of at most 4000 characters
unchanged with no marker. -/
theorem C7_truncation (tc : ToolCall) (res : ToolResult) (r : String)
    (h : res.result = some r) :
    (4000 < r.length →
      toolResultMessage tc res =
        toolResultHeader tc res ++
          ("结果:\n" ++ (r.take 4000 ++ "\n... [内容已截断，共 " ++ toString r.length ++ " 字符]")) ++
          toolResultInteractTail tc res) ∧
    (r.length ≤ 4000 →
      toolResultMessage tc res =
        toolResultHeader tc res ++ ("结果:\n" ++ r) ++ toolResultInteractTail tc res) := by
  constructor <;> intro hlen <;>
    simp only [toolResultMessage, toolResultHeader, toolResultInteractTail, h]
  · rw [if_pos hlen]
  · rw [if_neg (by omega)]

/-- C7 witness: a 4001-character body is embedded truncated with the
4001-character marker. -/
theorem C7_truncation_witness :
    toolResultMessage callLs resultLong =
      toolResultHeader callLs resultLong ++
        ("结果:\n" ++ (longBody.take 4000 ++ "\n... [内容已截断，共 " ++ toString longBody.length ++ " 字符]")) ++
        toolResultInteractTail callLs resultLong := by
  have hlen : longBody.length = 4001 := by
    show (String.mk (List.replicate 4001 'a')).length = 4001
    rw [String.length]
    exact List.length_replicate 4001 'a'
  exact (C7_truncation callLs resultLong longBody rfl).1 (by omega)

theorem trimGo_of_under (max_tokens fuel : Nat) (msgs : List Message)
    (h : estTokens msgs ≤ max_tokens) : trimGo max_tokens fuel msgs = msgs := by
  cases fuel with
  | zero => rfl
  | succ n =>
    rw [trimGo]
    rw [if_neg]
    simp only [Bool.and_eq_true, decide_eq_true_eq, not_and]
    intro hgt
    omega

/-- C8: when the estimated cost (total characters over 4) is within the
ceiling, `_trim_history` leaves the conversation unchanged, and hence
trimming twice equals trimming once. -/
theorem C8_trim_idempotent (st : DlgState) (h : estTokens st.messages ≤ st.max_tokens) :
    _trim_history st = st ∧ _trim_history (_trim_history st) = _trim_history st := by
  have h1 : _trim_history st = st := by
    show { st with messages := trimGo st.max_tokens st.messages.length st.messages } = st
    rw [trimGo_of_under _ _ _ h]
  exact ⟨h1, by rw [h1]; exact h1⟩

/-- C8 witness: trimming a concrete under-ceiling conversation is a no-op
and idempotent. -/
theorem C8_trim_idempotent_witness :
    _trim_history dlgSmall = dlgSmall ∧
      _trim_history (_trim_history dlgSmall) = _trim_history dlgSmall :=
  C8_trim_idempotent dlgSmall (by decide)

theorem add_tool_result_flag (s : DlgState) (tc : ToolCall) (res : ToolResult) :
    (add_tool_result s tc res).last_tool_was_info = decide (tc.name = "info") := rfl

theorem dlgTrace_flag : ∀ (s : DlgState) (last : Option String), DlgTrace s last →
    s.last_tool_was_info = decide (last = some "info") := by
  intro s last h
  induction h with
  | init max_tokens prompt => rfl
  | user c _ ih => exact ih
  | assistant c _ ih => exact ih
  | tool tc res _ _ => simp [add_tool_result_flag]
  | trim _ ih => exact ih

theorem parse_call_error_none {r : ModelResponse} {tools : List String} {tc : ToolCall}
    (h : parse_response r tools = .call tc) : r.error = none := by
  cases he : r.error with
  | none => rfl
  | some e => simp [parse_response, he] at h

theorem assistantAppended_flag (d : DlgState) (r : ModelResponse) :
    (assistantAppended d r).last_tool_was_info = d.last_tool_was_info := by
  unfold assistantAppended
  rcases r with ⟨e, det, chs⟩
  cases chs with
  | nil => rfl
  | cons c0 rest =>
    rcases c0 with ⟨m⟩
    cases m with
    | none => rfl
    | some mm =>
      rcases mm with ⟨ct⟩
      cases ct with
      | none => rfl
      | some s =>
        dsimp only
        split <;> rfl

theorem handleToolCall_guard (cfg : AgentCfg) (uuid : String) (st : AgentState)
    (tc : ToolCall) (hname : tc.name = "info")
    (hflag : st.dialogue.last_tool_was_info = true) :
    handleToolCall cfg uuid st tc =
      (Except.ok infoGuardResponse,
       { st with dialogue := add_tool_result st.dialogue tc infoGuardResult }) := by
  unfold handleToolCall
  rw [hname, hflag]
  simp [infoGuardResponse, infoGuardResult]

theorem process_message_to_handle (cfg : AgentCfg) (uuid : String) (st : AgentState)
    (message : String) (response : ModelResponse) (tc : ToolCall)
    (herr : response.error = none)
    (hp : parse_response response cfg.tool_descriptions = .call tc) :
    process_message cfg uuid st message response =
      handleToolCall cfg uuid
        { st with dialogue := assistantAppended (add_user_message st.dialogue message) response }
        tc := by
  unfold process_message
  rw [herr]
  dsimp only
  rw [hp]

theorem add_user_message_flag (s : DlgState) (c : String) :
    (add_user_message s c).last_tool_was_info = s.last_tool_was_info := rfl

/-- C10: the `last_tool_was_info` flag always equals whether the most
recently recorded tool result was recorded under the `info` name, and when
it is set, a parsed `info` call is intercepted by the loop guard: the
warning response with the synthetic failed result is returned, the flag
stays set, and the outcome does not depend on the registered tool
implementations (only the description keys reach the guard). -/
theorem C10_info_flag_guard :
    (∀ (s : DlgState) (last : Option String), DlgTrace s last →
      s.last_tool_was_info = decide (last = some "info")) ∧
    (∀ (cfg cfg2 : AgentCfg) (uuid : String) (st : AgentState) (message : String)
       (response : ModelResponse) (tc : ToolCall),
       cfg2.tool_descriptions = cfg.tool_descriptions →
       st.dialogue.last_tool_was_info = true →
       parse_response response cfg.tool_descriptions = .call tc →
       tc.name = "info" →
       (process_message cfg uuid st message response).1 = Except.ok infoGuardResponse ∧
       (process_message cfg uuid st message response).2.dialogue.last_tool_was_info = true ∧
       process_message cfg2 uuid st message response =
         process_message cfg uuid st message response) := by
  constructor
  · exact dlgTrace_flag
  · intro cfg cfg2 uuid st message response tc hdesc hflag hp hname
    have herr := parse_call_error_none hp
    have hflag1 : (assistantAppended (add_user_message st.dialogue message)
        response).last_tool_was_info = true := by
      rw [assistantAppended_flag, add_user_message_flag]; exact hflag
    have h1 := process_message_to_handle cfg uuid st message response tc herr hp
    have hp2 : parse_response response cfg2.tool_descriptions = .call tc := by
      rw [hdesc]; exact hp
    have h2 := process_message_to_handle cfg2 uuid st message response tc herr hp2
    have hg1 := handleToolCall_guard cfg uuid
      { st with dialogue := assistantAppended (add_user_message st.dialogue message) response }
      tc hname hflag1
    have hg2 := handleToolCall_guard cfg2 uuid
      { st with dialogue := assistantAppended (add_user_message st.dialogue message) response }
      tc hname hflag1
    refine ⟨?_, ?_, ?_⟩
    · rw [h1, hg1]
    · rw [h1, hg1]
      simp [add_tool_result_flag, hname]
    · rw [h1, hg1, h2, hg2]

theorem handleToolCall_isOk (cfg : AgentCfg) (uuid : String) (st : AgentState)
    (tc : ToolCall) (hfit : CallArgsFit cfg tc) :
    (handleToolCall cfg uuid st tc).1.isOk = true := by
  unfold handleToolCall
  split
  · rfl
  · dsimp only
    split
    · rfl
    · next t ht =>
      split
      · next hint =>
        obtain ⟨fs, hargs⟩ := hfit.1 hint
        rw [hargs]
        rfl
      · next hnint =>
        have hb := hfit.2 t ht
        cases hbe : bindArgs tc.name t.params tc.args with
        | error e => rw [hbe] at hb; exact Bool.noConfusion hb
        | ok bound =>
          dsimp only
          split <;> rfl

/-- C3 (amended): when the dispatched call's arguments fit the resolved
tool's signature, `process_message` raises no exception — failures inside
tool bodies come back as failed ToolResults — but an argument-name mismatch
at the `tool_function(**tool_args)` boundary raises a `TypeError` that
escapes `process_message` and is converted by the `chat` handler into a
generic 500 error body, not a failed ToolResult. -/
theorem C3_bound_dispatch_no_raise :
    (∀ (cfg : AgentCfg) (uuid : String) (st : AgentState) (message : String)
       (response : ModelResponse), DispatchBindsOk cfg response →
       (process_message cfg uuid st message response).1.isOk = true) ∧
    (chat cfgBasic "S" "ns" "ni" 100 respBogusExit appStatePendingX
        (some requestDoIt)).1.status = 500 ∧
    (chat cfgBasic "S" "ns" "ni" 100 respBogusExit appStatePendingX
        (some requestDoIt)).1.body =
      ChatBody.errBody "exit() got an unexpected keyword argument 'bogus'" := by
  refine ⟨?_, rfl, rfl⟩
  intro cfg uuid st message response hok
  cases he : response.error with
  | some e =>
    unfold process_message
    rw [he]
    rfl
  | none =>
    unfold process_message
    rw [he]
    dsimp only
    cases hp : parse_response response cfg.tool_descriptions with
    | errOut m c => rfl
    | eof =>
      dsimp only
      exact handleToolCall_isOk _ _ _ _ (hok _ (by rw [hp]; rfl))
    | call tc =>
      dsimp only
      exact handleToolCall_isOk _ _ _ _ (hok tc (by rw [hp]; rfl))

/-- C3 counterexample: a dispatched call with a misspelled argument name
makes `process_message` return an uncaught `TypeError` instead of a failed
ToolResult. -/
theorem C3_counterexample :
    (process_message cfgBasic "ni" agentFresh "do it" respBogusExit).1 =
      Except.error (PyErr.typeError "exit() got an unexpected keyword argument 'bogus'") :=
  rfl

/-- C3 witness: a concrete well-bound dispatch returns without raising. -/
theorem C3_bound_dispatch_no_raise_witness :
    (process_message cfgBasic "ni" agentFresh "go" respPlainInfo).1.isOk = true := by
  refine C3_bound_dispatch_no_raise.1 cfgBasic "ni" agentFresh "go" respPlainInfo ?_
  intro tc hdisp
  have hd : dispatchedCall (parse_response respPlainInfo cfgBasic.tool_descriptions) =
      some ⟨"info", .obj [("content", .str "alpha beta gamma delta")]⟩ := rfl
  rw [hd] at hdisp
  injection hdisp with hdisp
  subst hdisp
  constructor
  · intro habs
    exact absurd habs (by decide)
  · intro t ht
    have hi : get_tool_function cfgBasic "info" = some infoTool := rfl
    rw [hi] at ht
    injection ht with ht
    subst ht
    rfl

theorem pyAssocGet_filter {β : Type} (q : String × β → Bool) (k : String) :
    ∀ l : List (String × β), (∀ p ∈ l, p.1 = k → q p = false) →
      pyAssocGet (l.filter q) k = none := by
  intro l
  induction l with
  | nil => intro _; rfl
  | cons a l ih =>
    intro h
    rcases a with ⟨k', v⟩
    by_cases hq : q (k', v) = true
    · rw [List.filter_cons_of_pos hq]
      have hk : ¬ k' = k := by
        intro hk
        have := h (k', v) (by simp) hk
        rw [this] at hq
        exact Bool.noConfusion hq
      show (if k' = k then some v else pyAssocGet (l.filter q) k) = none
      rw [if_neg hk]
      exact ih (fun p hp => h p (by simp [hp]))
    · rw [List.filter_cons_of_neg (by simpa using hq)]
      exact ih (fun p hp => h p (by simp [hp]))

/-- C4 (amended): an attempt to complete a pending interaction whose entry
is older than the 1800-second TTL is not routed to completion — the lazy
purge removes the app-level entry, and the handler treats the request
exactly as if it carried no interaction id, so the text is processed as a
fresh user message (triggering a model round-trip).  The unknown-or-expired
rejection, with no round-trip and no state change, happens only when
`complete_interaction` is reached with an id absent from the agent's
pending table. -/
theorem C4_expired_completion :
    (∀ (cfg : AgentCfg) (sp us ui : String) (now : Nat) (response : ModelResponse)
       (st : AppState) (req : ChatRequest) (iid : String),
       req.interaction_id = some iid →
       (∀ p ∈ st.interaction_requests, p.1 = iid → now - p.2.created_at > 1800) →
       chat cfg sp us ui now response st (some req) =
         chat cfg sp us ui now response st (some { req with interaction_id := none })) ∧
    (∀ (cfg : AgentCfg) (uuid : String) (st : AgentState) (iid input : String)
       (response : ModelResponse),
       pyAssocGet st.pending_interactions iid = none →
       complete_interaction cfg uuid st iid input response =
         (Except.ok { type := "error", message := some ("交互ID " ++ iid ++ " 不存在或已过期") }, st)) := by
  constructor
  · intro cfg sp us ui now response st req iid hid hexp
    have hlook : pyAssocGet (cleanup_expired_data now st).interaction_requests iid = none := by
      unfold cleanup_expired_data
      exact pyAssocGet_filter _ _ _ (fun p hp hk => by simp [hexp p hp hk])
    rcases req with ⟨rsid, rmsg, rcont, rint⟩
    dsimp only at hid
    subst hid
    unfold chat
    dsimp only
    cases rsid <;> cases rmsg <;> dsimp only
    all_goals split
    all_goals try rfl
    all_goals split_ifs <;> ((try dsimp only); rw [hlook])
  · intro cfg uuid st iid input response h
    unfold complete_interaction
    rw [h]

/-- C4 counterexample: completing interaction `"x"` (created at time 0) at
time 2000 — past the 1800-second TTL, untouched in between — is answered
with a `tool_result` payload, not an unknown-or-expired error, and the
session's conversation grows from one message to four: the text was
processed as a fresh user message and a model round-trip took place. -/
theorem C4_counterexample :
    (chat cfgBasic "S" "ns" "ni" 2000 respPlainInfo appStatePendingX
        (some requestCompleteX)).1.body =
      ChatBody.payload
        { type := "tool_result", tool := some "info", success := some true,
          result := some "alpha beta gamma delta" } "s" true ∧
    ((chat cfgBasic "S" "ns" "ni" 2000 respPlainInfo appStatePendingX
        (some requestCompleteX)).2.sessions.map
          (fun kv => (kv.1, kv.2.dialogue.messages.length))) = [("s", 4)] :=
  ⟨rfl, rfl⟩

/-- C4 witness: the concrete expired-completion request is handled exactly
like the same request without an interaction id, and a concrete unknown id
reaching `complete_interaction` is rejected without touching the state. -/
theorem C4_expired_completion_witness :
    chat cfgBasic "S" "ns" "ni" 2000 respPlainInfo appStatePendingX (some requestCompleteX) =
      chat cfgBasic "S" "ns" "ni" 2000 respPlainInfo appStatePendingX
        (some { requestCompleteX with interaction_id := none }) ∧
    complete_interaction cfgBasic "ni" agentFresh "x" "hello" respPlainInfo =
      (Except.ok { type := "error", message := some ("交互ID " ++ "x" ++ " 不存在或已过期") },
        agentFresh) := by
  constructor
  · exact C4_expired_completion.1 cfgBasic "S" "ns" "ni" 2000 respPlainInfo
      appStatePendingX requestCompleteX "x" rfl (by decide)
  · exact C4_expired_completion.2 cfgBasic "ni" agentFresh "x" "hello" respPlainInfo rfl

theorem pyAssocGet_set_self {β : Type} (l : List (String × β)) (k : String) (v : β) :
    pyAssocGet (pyAssocSet l k v) k = some v := by
  induction l with
  | nil => simp [pyAssocSet, pyAssocGet]
  | cons a l ih =>
    rcases a with ⟨k', v'⟩
    by_cases h : k' = k
    · simp [pyAssocSet, pyAssocGet, h]
    · simp [pyAssocSet, pyAssocGet, h, ih]

theorem chatAfterPM_continuation (now : Nat) (st : AppState) (session_id : String)
    (pm : Except PyErr AgentResponse × AgentState) (r : AgentResponse) (s : String)
    (hcont : Bool)
    (h : (chatAfterPM now st session_id pm).1.body = ChatBody.payload r s hcont) :
    (hcont = false ↔ r.type = "interaction_required") := by
  rcases pm with ⟨res, agent⟩
  cases res with
  | error e => exact absurd h (by simp [chatAfterPM])
  | ok result =>
    unfold chatAfterPM at h
    dsimp only at h
    by_cases ht : result.type = "interaction_required"
    · rw [if_pos ht] at h
      dsimp only at h
      rw [pyAssocGet_set_self] at h
      injection h with h1 h2 h3
      subst h1; subst h3
      simp [ht]
    · rw [if_neg ht] at h
      dsimp only at h
      rw [pyAssocGet_set_self] at h
      injection h with h1 h2 h3
      subst h1; subst h3
      simp [ht]

/-- C9: for every `/api/chat` request carrying a new user message (not an
interaction completion), the `has_continuation` field of the enriched
response is `false` exactly when the response type is
`interaction_required`; in particular `exit`, `error`, `warning` and
`tool_result` responses all carry `has_continuation = true`. -/
theorem C9_has_continuation :
    ∀ (cfg : AgentCfg) (sp us ui : String) (now : Nat) (response : ModelResponse)
      (st : AppState) (req : ChatRequest) (r : AgentResponse) (sid : String)
      (hcont : Bool),
      NewMessageRequest now st req →
      (chat cfg sp us ui now response st (some req)).1.body = ChatBody.payload r sid hcont →
      (hcont = false ↔ r.type = "interaction_required") := by
  intro cfg sp us ui now response st req r sid hcont hnew h
  rcases req with ⟨rsid, rmsg, rcont, rint⟩
  unfold chat at h
  dsimp only at h
  cases rsid <;> cases rmsg <;> cases rint <;> dsimp only at h
  all_goals try exact absurd h (by simp)
  all_goals split at h
  all_goals try exact absurd h (by simp)
  all_goals try split_ifs at h
  all_goals try dsimp only at h
  all_goals try exact chatAfterPM_continuation _ _ _ _ _ _ _ h
  all_goals rw [hnew _ rfl] at h
  all_goals exact chatAfterPM_continuation _ _ _ _ _ _ _ h

/-- C9 witness: a concrete new-message request answered by an `exit`-type
response carries `has_continuation = true`. -/
theorem C9_has_continuation_witness :
    ((true : Bool) = false ↔
      ({ type := "exit", message := some "任务已完成" } : AgentResponse).type =
        "interaction_required") :=
  C9_has_continuation cfgBasic "S" "ns" "ni" 100 (mkEnvelope "EOF") appStatePendingX
    { session_id := some "s", message := some "go" }
    { type := "exit", message := some "任务已完成" } "s" true
    (by intro iid hi; simp at hi) rfl

/-- C10 witness: the flag invariant at a concrete trace, and a concrete
interception — flag set, parsed `info` call — returning the warning with
the flag still set, independent of the registered implementations. -/
theorem C10_info_flag_guard_witness :
    dlgSample.last_tool_was_info = decide ((some "info" : Option String) = some "info") ∧
    ((process_message cfgBasic "ni" agentAfterInfo "go" respPlainInfo).1 =
        Except.ok infoGuardResponse ∧
      (process_message cfgBasic "ni" agentAfterInfo "go"
          respPlainInfo).2.dialogue.last_tool_was_info = true ∧
      process_message cfgDescOnly "ni" agentAfterInfo "go" respPlainInfo =
        process_message cfgBasic "ni" agentAfterInfo "go" respPlainInfo) := by
  constructor
  · exact C10_info_flag_guard.1 dlgSample (some "info")
      (DlgTrace.trim (DlgTrace.tool _ _ (DlgTrace.user "hi" (DlgTrace.init 16000 "S"))))
  · exact C10_info_flag_guard.2 cfgBasic cfgDescOnly "ni" agentAfterInfo "go" respPlainInfo
      ⟨"info", .obj [("content", .str "alpha beta gamma delta")]⟩ rfl rfl rfl rfl

/-- C1 counterexample: with a Unix rule set containing the `rm` pattern,
`classify("rm -rf /")` in the compound-rule variant returns the rule's
generic description — the first-token rule fires before the compound
heuristic is ever consulted — not the compound "dangerous recursive
delete" description the claim requires. -/
theorem C1_counterexample :
    MainPy.is_sensitive_command unixDefaultRules "linux" "rm -rf /" =
      (true, "删除文件或目录命令") ∧
    ("删除文件或目录命令" : String) ≠ "危险的递归删除命令" := by decide

/-- C1 (amended): the basic first-token rules are checked before, and take
precedence over, the compound heuristics: both `rm -rf /` and
`rm -rf /tmp/x` classify as sensitive with the rule's generic description;
the compound "dangerous recursive delete" description is produced only when
a rule's pattern occurs in the command without matching its first token
(e.g. a pattern `-rf`).  The `agent.py` variant, which has no compound
heuristics at all, gives the generic description as well. -/
theorem C1_amended :
    MainPy.is_sensitive_command unixDefaultRules "linux" "rm -rf /" =
      (true, "删除文件或目录命令") ∧
    MainPy.is_sensitive_command unixDefaultRules "linux" "rm -rf /tmp/x" =
      (true, "删除文件或目录命令") ∧
    MainPy.is_sensitive_command [⟨some "-rf", some "强制递归删除标志", ["linux"]⟩]
        "linux" "rm -rf /" = (true, "危险的递归删除命令") ∧
    AgentPy.is_sensitive_command unixDefaultRules "linux" "rm -rf /" =
      (true, "删除文件或目录命令") := by decide

/-- C2: on a command whose shell-word tokenization raises (an unterminated
quote), the `agent.py` and `tools/execute.py` security-gate variants return
not-sensitive — they fail open, contradicting the specified fail-closed
policy — while only the `main.py` variant fails closed. -/
theorem C2_fail_open :
    shlex_split "rm \"a" = Except.error "No closing quotation" ∧
    AgentPy.is_sensitive_command unixDefaultRules "linux" "rm \"a" = (false, "") ∧
    ToolsExecute.is_sensitive_command unixDefaultRules "linux" "rm \"a" = (false, "") ∧
    MainPy.is_sensitive_command unixDefaultRules "linux" "rm \"a" =
      (true, "命令检查异常，请谨慎执行") := ⟨rfl, rfl, rfl, rfl⟩

/-- C6: with `exit` registered and content `"done, EOF"`, the parser
returns the EOF sentinel — the EOF rule precedes and preempts the keyword
fallback, so no exit or info call is guessed. -/
theorem C6_eof_precedence :
    parse_response (mkEnvelope "done, EOF") ["exit"] = ParseOutcome.eof := rfl
